import Mathlib

/-!
Shallow embedding of the transaction-analyzer script (src/calculate.py).

The script loads an Excel sheet into a row set, drops rows missing one of
the three required columns, derives Year / Month (three-letter label) /
Month_Num from the transaction date, filters by a sidebar selection
(year, account codes, month labels), and then computes: three scalar
metrics, a pivot table (Account Code x Month with a trailing Total
column), a per-month total series, a per-account-code total series, and
an Excel export of the pivot.

Modelling conventions:
- a raw spreadsheet row is a record of three optional fields (a missing
  cell is `none`), mirroring what `dropna` inspects;
- a cleaned transaction stores the parsed date parts; the Year, Month and
  Month_Num columns of the script are derived functions of the date,
  exactly as lines 22-24 derive them from the datetime;
- amounts are rationals (the script only adds and divides amounts);
- pandas `Series.mean` on an empty series yields NaN; this is modelled
  as `none` in an `Option Rat`;
- Python `sorted` and the sorting done by pandas `groupby` /
  `pivot_table` are stable sorts, modelled with `List.insertionSort`;
- pandas `.unique()` keeps first occurrences, modelled by `unique` below;
- the xlsx byte format is modelled at the cell-grid level: `to_excel`
  writes a header row (index name then column labels) followed by one
  row per pivot row, and `read_excel` parses that grid back.
-/

/-- Raw spreadsheet row: the three columns the script requires, each possibly
missing.  A date is a (year, month, day) triple as parsed by `to_datetime`. -/
structure RawRow where
  transaction_date : Option (Int × Nat × Nat)
  account_code : Option String
  base_amount : Option Rat
deriving DecidableEq

/-- Cleaned transaction row after `dropna` and date parsing (line 21). -/
structure Txn where
  dateYear : Int
  dateMonth : Nat
  dateDay : Nat
  code : String
  amount : Rat
deriving DecidableEq

/-- Three-letter month label, as produced by strftime with the %b format
(line 23) for a month number 1..12. -/
def monthAbbrev (n : Nat) : String :=
  match n with
  | 1 => "Jan"
  | 2 => "Feb"
  | 3 => "Mar"
  | 4 => "Apr"
  | 5 => "May"
  | 6 => "Jun"
  | 7 => "Jul"
  | 8 => "Aug"
  | 9 => "Sep"
  | 10 => "Oct"
  | 11 => "Nov"
  | 12 => "Dec"
  | _ => ""

/-- Calendar number of a three-letter month label (inverse of `monthAbbrev`
on 1..12; 0 on anything else). -/
def month_to_num (m : String) : Nat :=
  match m with
  | "Jan" => 1
  | "Feb" => 2
  | "Mar" => 3
  | "Apr" => 4
  | "May" => 5
  | "Jun" => 6
  | "Jul" => 7
  | "Aug" => 8
  | "Sep" => 9
  | "Oct" => 10
  | "Nov" => 11
  | "Dec" => 12
  | _ => 0

/-- Year column of line 22, derived from the transaction date. -/
def Txn.year (t : Txn) : Int := t.dateYear

/-- Month label column of line 23, derived from the transaction date. -/
def Txn.month (t : Txn) : String := monthAbbrev t.dateMonth

/-- Month_Num column of line 24, derived from the transaction date. -/
def Txn.month_num (t : Txn) : Nat := t.dateMonth

/-- Dates produced by `pd.to_datetime` always carry a month number in 1..12;
this predicate records that fact about a row set. -/
def ValidMonths (l : List Txn) : Prop :=
  ∀ t ∈ l, 1 ≤ t.dateMonth ∧ t.dateMonth ≤ 12

instance (l : List Txn) : Decidable (ValidMonths l) := by
  unfold ValidMonths
  infer_instance

/-- Line 18: drop the rows that miss any of Transaction Date, Account Code
or Base Amount.  The operation is total: incomplete rows are removed
silently, no error path exists. -/
def dropna (rows : List RawRow) : List RawRow :=
  rows.filter
    (fun r => r.transaction_date.isSome && r.account_code.isSome && r.base_amount.isSome)

/-- Conversion of a complete raw row into a cleaned transaction; yields
`none` exactly when a required field is missing. -/
def toTxn (r : RawRow) : Option Txn :=
  match r.transaction_date, r.account_code, r.base_amount with
  | some d, some c, some a => some ⟨d.1, d.2.1, d.2.2, c, a⟩
  | _, _, _ => none

/-- Lines 17-24: load, drop incomplete rows, parse dates. -/
def load_clean (rows : List RawRow) : List Txn :=
  (dropna rows).filterMap toTxn

/-- Sidebar selection (lines 30-39): a year, a subset of the account codes
of that year, and a subset of the month labels of that year. -/
structure Selection where
  year : Int
  codes : List String
  months : List String
deriving DecidableEq

/-- Line 31: restriction of the data to the selected year. -/
def df_year (df : List Txn) (y : Int) : List Txn :=
  df.filter (fun t => t.year == y)

/-- Lines 42-45: rows of the selected year whose account code and month
label are among the selected ones. -/
def filtered_df (df : List Txn) (sel : Selection) : List Txn :=
  (df_year df sel.year).filter
    (fun t => sel.codes.contains t.code && sel.months.contains t.month)

/-- First-occurrence duplicate removal, the order pandas `.unique()` uses.
The accumulator holds the values already emitted. -/
def uniqueAux {α : Type} [DecidableEq α] (seen : List α) : List α → List α
  | [] => []
  | x :: xs => if x ∈ seen then uniqueAux seen xs else x :: uniqueAux (x :: seen) xs

/-- Pandas `.unique()`: distinct values in first-occurrence order. -/
def unique {α : Type} [DecidableEq α] (l : List α) : List α :=
  uniqueAux [] l

/-- Line 37: dictionary from month label to month number built by zipping
the two columns of the year data; for duplicate keys the last pair wins,
as in a Python dict built from zip.  A label absent from the year data
maps to 0 (in Python this lookup is never performed on such a label). -/
def month_map (dfy : List Txn) (m : String) : Nat :=
  match dfy.reverse.find? (fun t => t.month == m) with
  | some t => t.month_num
  | none => 0

/-- Line 38: month labels of the selected year, sorted by their calendar
number through the month map. -/
def sorted_months (dfy : List Txn) : List String :=
  List.insertionSort (fun a b => month_map dfy a ≤ month_map dfy b)
    (unique (dfy.map Txn.month))

/-- Line 50 metric: number of filtered transactions. -/
def total_transactions (fdf : List Txn) : Nat := fdf.length

/-- Line 51 metric: sum of Base Amount over the filtered rows. -/
def total_amount (fdf : List Txn) : Rat :=
  (fdf.map Txn.amount).sum

/-- Line 52 metric: pandas mean of the Base Amount column.  On an empty
series pandas returns NaN, modelled as `none`; otherwise sum divided by
count. -/
def avg_per_transaction (fdf : List Txn) : Option Rat :=
  if fdf.length = 0 then none else some (total_amount fdf / (fdf.length : Rat))

/-- Lines 58-65: one cell of the pivot table, the summed amount of the
filtered rows with the given account code and month label; an empty group
yields 0 (fill_value = 0 and the reindex fill). -/
def pivot_cell (fdf : List Txn) (c m : String) : Rat :=
  total_amount (fdf.filter (fun t => t.code == c && t.month == m))

/-- Lines 58-65: the index of the pivot table, the distinct account codes
present in the filtered rows, sorted ascending as `pivot_table` sorts its
index. -/
def pivot_rows (fdf : List Txn) : List String :=
  List.insertionSort (fun a b => a ≤ b) (unique (fdf.map Txn.code))

/-- Line 67: the Total column, the row sum across the month columns the
pivot has after the line 66 reindex, namely `sorted_months` of the year
data. -/
def pivot_total (dfy fdf : List Txn) (c : String) : Rat :=
  ((sorted_months dfy).map (fun m => pivot_cell fdf c m)).sum

/-- Displayed pivot table (lines 58-68): column labels are the reindex
target plus the Total column; each row carries its account code and its
cell values in column order. -/
structure PivotTable where
  col_labels : List String
  rows : List (String × List Rat)
deriving DecidableEq

/-- Lines 58-67 assembled into the displayed table. -/
def make_pivot (dfy fdf : List Txn) : PivotTable :=
  { col_labels := sorted_months dfy ++ ["Total"]
    rows := (pivot_rows fdf).map
      (fun c => (c, (sorted_months dfy).map (fun m => pivot_cell fdf c m)
        ++ [pivot_total dfy fdf c])) }

/-- Lines 72: groupby Month with sum; pandas groupby sorts its keys, so the
rows come out in ascending label order before the explicit re-sort. -/
def monthly_totals_rows (fdf : List Txn) : List (String × Rat) :=
  (List.insertionSort (fun a b => a ≤ b) (unique (fdf.map Txn.month))).map
    (fun m => (m, total_amount (fdf.filter (fun t => t.month == m))))

/-- Lines 72-74: the monthly series after attaching Month_Num through the
month map and sorting by it. -/
def monthly_totals (dfy fdf : List Txn) : List (String × Rat) :=
  List.insertionSort (fun a b => month_map dfy a.1 ≤ month_map dfy b.1)
    (monthly_totals_rows fdf)

/-- Line 89: groupby Account Code with sum; keys in ascending order. -/
def code_totals (fdf : List Txn) : List (String × Rat) :=
  (List.insertionSort (fun a b => a ≤ b) (unique (fdf.map Txn.code))).map
    (fun c => (c, total_amount (fdf.filter (fun t => t.code == c))))

/-- Everything one recomputation pass of the page displays. -/
structure AggResult where
  total_transactions : Nat
  total_amount : Rat
  avg_per_transaction : Option Rat
  pivot : PivotTable
  monthly_totals : List (String × Rat)
  code_totals : List (String × Rat)
deriving DecidableEq

/-- Lines 42-97 as one pass: all displayed values computed from the row set
and the selection.  The second component is the row set as the pass leaves
it; the script never writes into the input frame, so it is returned
unchanged. -/
def aggregation_pass (df : List Txn) (sel : Selection) : AggResult × List Txn :=
  let dfy := df_year df sel.year
  let fdf := filtered_df df sel
  (⟨total_transactions fdf, total_amount fdf, avg_per_transaction fdf,
    make_pivot dfy fdf, monthly_totals dfy fdf, code_totals fdf⟩, df)

/-- Cell of the exported sheet: a label or a number. -/
inductive Cell where
  | str (s : String)
  | num (q : Rat)
deriving DecidableEq

/-- Grid written by `pivot.to_excel` (line 103): a header row holding the
index name and the column labels, then one row per account code. -/
def pivot_to_grid (p : PivotTable) : List (List Cell) :=
  (Cell.str "Account Code" :: p.col_labels.map Cell.str) ::
    p.rows.map (fun r => Cell.str r.1 :: r.2.map Cell.num)

/-- Artifact handed to the download button (lines 101-111). -/
structure ExportArtifact where
  sheet_name : String
  file_name : String
  mime : String
  grid : List (List Cell)
deriving DecidableEq

/-- Lines 101-111: sheet name, download file name, MIME type and sheet
content of the export. -/
def export_pivot (selected_year : Int) (p : PivotTable) : ExportArtifact :=
  { sheet_name := "Pivot_" ++ toString selected_year
    file_name := "pivot_" ++ toString selected_year ++ ".xlsx"
    mime := "application/vnd.openxmlformats-officedocument.spreadsheetml.sheet"
    grid := pivot_to_grid p }

/-- Parse a run of label cells, as `read_excel` reads the header row. -/
def parseStrCells : List Cell → Option (List String)
  | [] => some []
  | Cell.str s :: cs =>
    match parseStrCells cs with
    | some rest => some (s :: rest)
    | none => none
  | Cell.num _ :: _ => none

/-- Parse a run of numeric cells. -/
def parseNumCells : List Cell → Option (List Rat)
  | [] => some []
  | Cell.num q :: cs =>
    match parseNumCells cs with
    | some rest => some (q :: rest)
    | none => none
  | Cell.str _ :: _ => none

/-- Parse one data row: an index label followed by numeric cells. -/
def parseRow : List Cell → Option (String × List Rat)
  | Cell.str c :: vals =>
    match parseNumCells vals with
    | some vs => some (c, vs)
    | none => none
  | _ => none

/-- Parse the data rows of the sheet, row by row. -/
def parseRows : List (List Cell) → Option (List (String × List Rat))
  | [] => some []
  | row :: rest =>
    match parseRow row, parseRows rest with
    | some r, some rs => some (r :: rs)
    | _, _ => none

/-- Re-parse of the exported sheet, as `read_excel` would rebuild the pivot
from the grid: first row is the header (index name then column labels),
the remaining rows are the table body. -/
def grid_to_pivot : List (List Cell) → Option PivotTable
  | (_ :: hdr) :: dataRows =>
    match parseStrCells hdr, parseRows dataRows with
    | some cols, some rows => some ⟨cols, rows⟩
    | _, _ => none
  | _ => none

/-- Concrete data of the worked scenario in the specification: two January
transactions on code A100 and one February transaction on code B200, all
in 2024. -/
def exDf : List Txn :=
  [⟨2024, 1, 5, "A100", 100⟩, ⟨2024, 1, 20, "A100", 50⟩, ⟨2024, 2, 1, "B200", 200⟩]

/-- Selection keeping both codes and both months of `exDf`. -/
def exSel : Selection := ⟨2024, ["A100", "B200"], ["Jan", "Feb"]⟩

/-- Valid selection keeping both codes but only January. -/
def exSelJan : Selection := ⟨2024, ["A100", "B200"], ["Jan"]⟩

/-- Selection with no account codes: the empty-selection scenario. -/
def exSelEmpty : Selection := ⟨2024, [], ["Jan", "Feb"]⟩

/-- Raw rows: one complete, one missing its amount, one missing its date. -/
def exRaws : List RawRow :=
  [⟨some (2024, 1, 5), some "A100", some 100⟩,
   ⟨some (2024, 1, 20), some "A100", none⟩,
   ⟨none, some "B200", some 200⟩]

/-- Complete head row of `exRaws`. -/
def exRaw1 : RawRow := ⟨some (2024, 1, 5), some "A100", some 100⟩

/-- Head transaction of `exDf`. -/
def exTxn1 : Txn := ⟨2024, 1, 5, "A100", 100⟩

/-- Membership in `uniqueAux`: the values of the list not yet seen. -/
lemma mem_uniqueAux {α : Type} [DecidableEq α] (l : List α) (seen : List α) (a : α) :
    a ∈ uniqueAux seen l ↔ a ∈ l ∧ a ∉ seen := by
  induction l generalizing seen with
  | nil => simp [uniqueAux]
  | cons x xs ih =>
    by_cases hx : x ∈ seen
    · rw [uniqueAux, if_pos hx, ih]
      constructor
      · rintro ⟨h1, h2⟩
        exact ⟨List.mem_cons_of_mem _ h1, h2⟩
      · rintro ⟨h1, h2⟩
        rcases List.mem_cons.mp h1 with rfl | h1
        · exact absurd hx h2
        · exact ⟨h1, h2⟩
    · rw [uniqueAux, if_neg hx]
      constructor
      · intro h
        rcases List.mem_cons.mp h with rfl | h
        · exact ⟨List.mem_cons_self _ _, hx⟩
        · obtain ⟨h1, h2⟩ := (ih (x :: seen)).mp h
          refine ⟨List.mem_cons_of_mem _ h1, fun hc => h2 (List.mem_cons_of_mem _ hc)⟩
      · rintro ⟨h1, h2⟩
        rcases List.mem_cons.mp h1 with rfl | h1
        · exact List.mem_cons_self _ _
        · by_cases hax : a = x
          · subst hax
            exact List.mem_cons_self _ _
          · refine List.mem_cons_of_mem _ ((ih (x :: seen)).mpr ⟨h1, ?_⟩)
            intro hc
            rcases List.mem_cons.mp hc with h | h
            · exact hax h
            · exact h2 h

/-- Membership in `unique`: exactly the values of the list. -/
lemma mem_unique {α : Type} [DecidableEq α] {l : List α} {a : α} :
    a ∈ unique l ↔ a ∈ l := by
  rw [unique, mem_uniqueAux]
  simp

/-- The output of `uniqueAux` has no duplicates. -/
lemma nodup_uniqueAux {α : Type} [DecidableEq α] (l : List α) (seen : List α) :
    (uniqueAux seen l).Nodup := by
  induction l generalizing seen with
  | nil => simp [uniqueAux]
  | cons x xs ih =>
    by_cases hx : x ∈ seen
    · rw [uniqueAux, if_pos hx]
      exact ih seen
    · rw [uniqueAux, if_neg hx]
      refine List.nodup_cons.mpr ⟨?_, ih (x :: seen)⟩
      intro hmem
      exact ((mem_uniqueAux xs (x :: seen) x).mp hmem).2 (List.mem_cons_self x seen)

/-- The output of `unique` has no duplicates. -/
lemma nodup_unique {α : Type} [DecidableEq α] (l : List α) : (unique l).Nodup :=
  nodup_uniqueAux l []

/-- Total amount of the empty row set. -/
lemma total_amount_nil : total_amount [] = 0 := rfl

/-- Total amount splits off the head row. -/
lemma total_amount_cons (t : Txn) (l : List Txn) :
    total_amount (t :: l) = t.amount + total_amount l := by
  simp [total_amount]

/-- Sum of a pointwise sum of two maps splits. -/
lemma sum_map_split (keys : List String) (f g : String → Rat) :
    (keys.map (fun k => f k + g k)).sum = (keys.map f).sum + (keys.map g).sum := by
  induction keys with
  | nil => simp
  | cons a l ih =>
    simp only [List.map_cons, List.sum_cons, ih]
    ring

/-- Summing an indicator over a duplicate-free key list that holds the key
collapses to the single value. -/
lemma sum_if_mem (keys : List String) (a : String) (x : Rat)
    (hnd : keys.Nodup) (ha : a ∈ keys) :
    (keys.map (fun k => if a = k then x else 0)).sum = x := by
  induction keys with
  | nil => exact absurd ha (List.not_mem_nil a)
  | cons b l ih =>
    rcases eq_or_ne a b with rfl | hne
    · have hnotin : a ∉ l := (List.nodup_cons.mp hnd).1
      have hzero : (l.map (fun k => if a = k then x else 0)).sum = 0 := by
        apply List.sum_eq_zero
        intro y hy
        obtain ⟨k, hk, rfl⟩ := List.mem_map.mp hy
        have hak : a ≠ k := fun h => hnotin (h ▸ hk)
        simp [hak]
      simp [hzero]
    · have ha2 : a ∈ l := by
        rcases List.mem_cons.mp ha with h | h
        · exact absurd h hne
        · exact h
      have ih2 := ih (List.nodup_cons.mp hnd).2 ha2
      simp [hne, ih2]

/-- Partition identity: grouping the rows by a key drawn from a
duplicate-free key list and summing the groups recovers the total sum. -/
lemma sum_filter_partition (keys : List String) (f : Txn → String) (l : List Txn)
    (hnd : keys.Nodup) (hall : ∀ t ∈ l, f t ∈ keys) :
    (keys.map (fun k => total_amount (l.filter (fun t => f t == k)))).sum
      = total_amount l := by
  induction l with
  | nil => simp [total_amount]
  | cons t l ih =>
    have hmem : f t ∈ keys := hall t (List.mem_cons_self t l)
    have hall2 : ∀ x ∈ l, f x ∈ keys := fun x hx => hall x (List.mem_cons_of_mem t hx)
    have hstep : (keys.map (fun k => total_amount ((t :: l).filter (fun x => f x == k))))
        = keys.map (fun k => (if f t = k then t.amount else 0)
            + total_amount (l.filter (fun x => f x == k))) := by
      apply List.map_congr_left
      intro k _
      by_cases h : f t = k
      · simp [List.filter_cons, h, total_amount_cons]
      · simp [List.filter_cons, h]
    rw [hstep, sum_map_split, sum_if_mem keys (f t) t.amount hnd hmem, ih hall2,
      total_amount_cons]

/-- The month label of a month number in 1..12 maps back to that number. -/
lemma month_to_num_monthAbbrev (n : Nat) (h1 : 1 ≤ n) (h2 : n ≤ 12) :
    month_to_num (monthAbbrev n) = n := by
  interval_cases n <;> decide

/-- A month label occurring in a valid row set is hit by `monthAbbrev` at
its own calendar number. -/
lemma present_label_roundtrip {dfy : List Txn} (hval : ValidMonths dfy) {m : String}
    (hm : m ∈ dfy.map Txn.month) : monthAbbrev (month_to_num m) = m := by
  obtain ⟨t, ht, rfl⟩ := List.mem_map.mp hm
  have hv := hval t ht
  show monthAbbrev (month_to_num (monthAbbrev t.dateMonth)) = monthAbbrev t.dateMonth
  rw [month_to_num_monthAbbrev t.dateMonth hv.1 hv.2]

/-- On the labels present in a valid row set, the zip-built month map agrees
with the calendar number. -/
lemma month_map_eq_of_mem {dfy : List Txn} (hval : ValidMonths dfy) {m : String}
    (hm : m ∈ dfy.map Txn.month) : month_map dfy m = month_to_num m := by
  unfold month_map
  cases hfind : dfy.reverse.find? (fun t => t.month == m) with
  | none =>
    exfalso
    obtain ⟨t, ht, hlabel⟩ := List.mem_map.mp hm
    have hmem : t ∈ dfy.reverse := List.mem_reverse.mpr ht
    have hnot := List.find?_eq_none.mp hfind t hmem
    simp [hlabel] at hnot
  | some t =>
    have hpt := List.find?_some hfind
    have htmem : t ∈ dfy := List.mem_reverse.mp (List.mem_of_find?_eq_some hfind)
    have hlab : t.month = m := by simpa using hpt
    have hv := hval t htmem
    show t.month_num = month_to_num m
    rw [← hlab]
    show t.dateMonth = month_to_num (monthAbbrev t.dateMonth)
    rw [month_to_num_monthAbbrev t.dateMonth hv.1 hv.2]

/-- The sorted month list is a permutation of the distinct labels. -/
lemma sorted_months_perm (dfy : List Txn) :
    List.Perm (sorted_months dfy) (unique (dfy.map Txn.month)) :=
  List.perm_insertionSort _ _

/-- Membership in the sorted month list: the labels of the year data. -/
lemma mem_sorted_months {dfy : List Txn} {m : String} :
    m ∈ sorted_months dfy ↔ m ∈ dfy.map Txn.month := by
  rw [(sorted_months_perm dfy).mem_iff, mem_unique]

/-- The sorted month list has no duplicates. -/
lemma nodup_sorted_months (dfy : List Txn) : (sorted_months dfy).Nodup :=
  ((sorted_months_perm dfy).nodup_iff).mpr (nodup_unique _)

/-- The sorted month list is sorted under the zip-built month map. -/
lemma sorted_months_sorted (dfy : List Txn) :
    (sorted_months dfy).Pairwise (fun a b => month_map dfy a ≤ month_map dfy b) := by
  haveI : IsTotal String (fun a b => month_map dfy a ≤ month_map dfy b) :=
    ⟨fun a b => Nat.le_total _ _⟩
  haveI : IsTrans String (fun a b => month_map dfy a ≤ month_map dfy b) :=
    ⟨fun a b c hab hbc => Nat.le_trans hab hbc⟩
  exact List.sorted_insertionSort _ _

/-- On a valid row set the sorted month list is strictly increasing in
calendar number. -/
lemma sorted_months_pairwise {dfy : List Txn} (hval : ValidMonths dfy) :
    (sorted_months dfy).Pairwise (fun a b => month_to_num a < month_to_num b) := by
  have hs := sorted_months_sorted dfy
  have hnd := (nodup_sorted_months dfy).imp (fun h => h)
  refine (hs.and (nodup_sorted_months dfy)).imp_of_mem ?_
  intro a b ha hb hab
  have hma : month_map dfy a = month_to_num a :=
    month_map_eq_of_mem hval (mem_sorted_months.mp ha)
  have hmb : month_map dfy b = month_to_num b :=
    month_map_eq_of_mem hval (mem_sorted_months.mp hb)
  have hle : month_to_num a ≤ month_to_num b := by
    rw [← hma, ← hmb]
    exact hab.1
  refine Nat.lt_of_le_of_ne hle ?_
  intro heq
  apply hab.2
  have := present_label_roundtrip hval (mem_sorted_months.mp ha)
  rw [← this, heq, present_label_roundtrip hval (mem_sorted_months.mp hb)]

/-- The pivot index is a permutation of the distinct codes. -/
lemma pivot_rows_perm (fdf : List Txn) :
    List.Perm (pivot_rows fdf) (unique (fdf.map Txn.code)) :=
  List.perm_insertionSort _ _

/-- Membership in the pivot index: the codes of the filtered rows. -/
lemma mem_pivot_rows {fdf : List Txn} {c : String} :
    c ∈ pivot_rows fdf ↔ c ∈ fdf.map Txn.code := by
  rw [(pivot_rows_perm fdf).mem_iff, mem_unique]

/-- The pivot index has no duplicates. -/
lemma nodup_pivot_rows (fdf : List Txn) : (pivot_rows fdf).Nodup :=
  ((pivot_rows_perm fdf).nodup_iff).mpr (nodup_unique _)

/-- The pivot index is sorted ascending. -/
lemma sorted_pivot_rows (fdf : List Txn) :
    (pivot_rows fdf).Pairwise (fun a b : String => a ≤ b) := by
  haveI : IsTotal String (fun a b : String => a ≤ b) := ⟨fun a b => le_total a b⟩
  haveI : IsTrans String (fun a b : String => a ≤ b) := ⟨fun a b c => le_trans⟩
  exact List.sorted_insertionSort _ _

/-- Membership in the filtered rows, characterized by the three selection
predicates. -/
lemma mem_filtered_df {df : List Txn} {sel : Selection} {t : Txn} :
    t ∈ filtered_df df sel ↔
      t ∈ df ∧ t.year = sel.year ∧ t.code ∈ sel.codes ∧ t.month ∈ sel.months := by
  unfold filtered_df df_year
  simp only [List.mem_filter, Bool.and_eq_true, beq_iff_eq, List.contains,
    List.elem_eq_mem, decide_eq_true_eq]
  tauto

/-- Claim C2 counterexample: at the empty-selection input the filtered
subset is empty and the script computes pandas mean of an empty series,
which is NaN (modelled as none).  No division error is raised, but the
metric does not resolve to a sentinel value such as 0; it is NaN. -/
theorem claim2_counterexample :
    avg_per_transaction (filtered_df exDf exSelEmpty) = none ∧
      avg_per_transaction (filtered_df exDf exSelEmpty) ≠ some 0 := by
  constructor
  · decide
  · decide

/-- Claim C2 as amended: when the filtered subset is empty the metric
computation is total (no division error is possible) and deterministic,
with count 0, total 0 and average NaN (none), the value pandas mean
returns on an empty series; the average is not 0 and no string marker is
produced. -/
theorem claim2_avg_nan (df : List Txn) (sel : Selection)
    (h : filtered_df df sel = []) :
    total_transactions (filtered_df df sel) = 0 ∧
    total_amount (filtered_df df sel) = 0 ∧
    avg_per_transaction (filtered_df df sel) = none := by
  rw [h]
  exact ⟨rfl, rfl, rfl⟩

/-- Witness for claim C2 at the empty-selection scenario. -/
theorem claim2_avg_nan_witness :
    filtered_df exDf exSelEmpty = [] ∧
      (total_transactions (filtered_df exDf exSelEmpty) = 0 ∧
       total_amount (filtered_df exDf exSelEmpty) = 0 ∧
       avg_per_transaction (filtered_df exDf exSelEmpty) = none) :=
  ⟨by decide, claim2_avg_nan exDf exSelEmpty (by decide)⟩

/-- Claim C4: the filter output is a subset of the input row set and every
record in it satisfies the three selection predicates: its year equals the
selected year, its account code is among the selected codes, and its month
label is among the selected months.  The filter is a pure function, so it
has no side effects on the input. -/
theorem claim4_filter_subset (df : List Txn) (sel : Selection) :
    (filtered_df df sel).Sublist df ∧
    ∀ t ∈ filtered_df df sel,
      t.year = sel.year ∧ t.code ∈ sel.codes ∧ t.month ∈ sel.months := by
  constructor
  · exact (List.filter_sublist _).trans (List.filter_sublist _)
  · intro t ht
    exact (mem_filtered_df.mp ht).2

/-- Witness for claim C4: the head transaction of the worked scenario
passes the filter and satisfies the three predicates. -/
theorem claim4_filter_subset_witness :
    exTxn1 ∈ filtered_df exDf exSel ∧
      (exTxn1.year = exSel.year ∧ exTxn1.code ∈ exSel.codes ∧
        exTxn1.month ∈ exSel.months) :=
  ⟨by decide, (claim4_filter_subset exDf exSel).2 exTxn1 (by decide)⟩

/-- Claim C6: the pivot index consists exactly of the distinct account
codes present in the filtered subset, without duplicates and sorted
ascending; in particular any code with at least one surviving record
appears as a row, whatever its total. -/
theorem claim6_pivot_rows_spec (df : List Txn) (sel : Selection) :
    (pivot_rows (filtered_df df sel)).Nodup ∧
    (pivot_rows (filtered_df df sel)).Pairwise (fun a b : String => a ≤ b) ∧
    ∀ c, c ∈ pivot_rows (filtered_df df sel) ↔ ∃ t ∈ filtered_df df sel, t.code = c := by
  refine ⟨nodup_pivot_rows _, sorted_pivot_rows _, fun c => ?_⟩
  rw [mem_pivot_rows]
  exact List.mem_map

/-- Claim C7: the rows surviving the dropna step are exactly the input rows
whose three required fields are all present; the step removes rows only
(a sublist of the input), removes every incomplete row, and each survivor
converts to a complete transaction.  The operation is total, so incomplete
rows are dropped without any error being raised. -/
theorem claim7_dropna_complete (rows : List RawRow) :
    (∀ r ∈ dropna rows,
        r.transaction_date.isSome ∧ r.account_code.isSome ∧ r.base_amount.isSome) ∧
    (dropna rows).Sublist rows ∧
    (∀ r ∈ rows,
        ¬(r.transaction_date.isSome ∧ r.account_code.isSome ∧ r.base_amount.isSome) →
        r ∉ dropna rows) ∧
    (∀ r ∈ dropna rows, (toTxn r).isSome) := by
  have hmem : ∀ r : RawRow, r ∈ dropna rows ↔ r ∈ rows ∧
      (r.transaction_date.isSome ∧ r.account_code.isSome ∧ r.base_amount.isSome) := by
    intro r
    unfold dropna
    simp [List.mem_filter, and_assoc]
  refine ⟨fun r hr => ((hmem r).mp hr).2, List.filter_sublist _,
    fun r hr hbad hin => hbad ((hmem r).mp hin).2, fun r hr => ?_⟩
  obtain ⟨h1, h2, h3⟩ := ((hmem r).mp hr).2
  obtain ⟨d, hd⟩ := Option.isSome_iff_exists.mp h1
  obtain ⟨c, hc⟩ := Option.isSome_iff_exists.mp h2
  obtain ⟨a, ha⟩ := Option.isSome_iff_exists.mp h3
  unfold toTxn
  rw [hd, hc, ha]
  rfl

/-- Witness for claim C7: the complete head row of the example raw rows
survives the dropna step and has all three fields present. -/
theorem claim7_dropna_complete_witness :
    exRaw1 ∈ dropna exRaws ∧
      (exRaw1.transaction_date.isSome ∧ exRaw1.account_code.isSome ∧
        exRaw1.base_amount.isSome) :=
  ⟨by decide, (claim7_dropna_complete exRaws).1 exRaw1 (by decide)⟩

/-- Claim C8: one aggregation pass leaves the input row set unchanged, and
a second pass on the records as the first pass left them produces the same
displayed result; recomputation is idempotent with no hidden mutation. -/
theorem claim8_idempotent_pure (df : List Txn) (sel : Selection) :
    (aggregation_pass (aggregation_pass df sel).2 sel).1 = (aggregation_pass df sel).1 ∧
    (aggregation_pass df sel).2 = df :=
  ⟨rfl, rfl⟩

/-- A filtered row belongs to the year restriction it was drawn from. -/
lemma filtered_subset_year {df : List Txn} {sel : Selection} {t : Txn}
    (ht : t ∈ filtered_df df sel) : t ∈ df_year df sel.year :=
  (List.mem_filter.mp ht).1

/-- The Total column entry of a row equals the summed amount of the rows
carrying that account code, provided every filtered row lies in the year
restriction the reindex target is computed from. -/
lemma pivot_total_eq (dfy fdf : List Txn) (hsub : ∀ t ∈ fdf, t ∈ dfy) (c : String) :
    pivot_total dfy fdf c = total_amount (fdf.filter (fun t => t.code == c)) := by
  unfold pivot_total
  have hrw : ((sorted_months dfy).map (fun m => pivot_cell fdf c m))
      = (sorted_months dfy).map (fun m =>
          total_amount ((fdf.filter (fun t => t.code == c)).filter (fun t => t.month == m))) := by
    apply List.map_congr_left
    intro m _
    unfold pivot_cell
    rw [List.filter_filter]
    apply congrArg total_amount
    apply List.filter_congr
    intro t _
    exact Bool.and_comm _ _
  rw [hrw]
  apply sum_filter_partition (sorted_months dfy) Txn.month
    (fdf.filter (fun t => t.code == c)) (nodup_sorted_months dfy)
  intro t ht
  have htf : t ∈ fdf := List.mem_of_mem_filter ht
  exact mem_sorted_months.mpr (List.mem_map_of_mem Txn.month (hsub t htf))

/-- Claim C3: summing the Total column of the pivot over all its rows gives
exactly the total-amount metric of the same filtered subset, the Total of
each row being the sum across the month columns only. -/
theorem claim3_pivot_total_eq_total_amount (df : List Txn) (sel : Selection) :
    ((pivot_rows (filtered_df df sel)).map
        (fun c => pivot_total (df_year df sel.year) (filtered_df df sel) c)).sum
      = total_amount (filtered_df df sel) := by
  have hcol : ((pivot_rows (filtered_df df sel)).map
      (fun c => pivot_total (df_year df sel.year) (filtered_df df sel) c))
      = (pivot_rows (filtered_df df sel)).map
          (fun c => total_amount ((filtered_df df sel).filter (fun t => t.code == c))) := by
    apply List.map_congr_left
    intro c _
    exact pivot_total_eq _ _ (fun t ht => filtered_subset_year ht) c
  rw [hcol]
  apply sum_filter_partition (pivot_rows (filtered_df df sel)) Txn.code
    (filtered_df df sel) (nodup_pivot_rows _)
  intro t ht
  exact mem_pivot_rows.mpr (List.mem_map_of_mem Txn.code ht)

/-- The alphabetically sorted distinct month labels of a row set have no
duplicates. -/
lemma monthly_keys_nodup (fdf : List Txn) :
    (List.insertionSort (fun a b : String => a ≤ b) (unique (fdf.map Txn.month))).Nodup :=
  ((List.perm_insertionSort _ _).nodup_iff).mpr (nodup_unique _)

/-- Every row contributes its month label to the sorted distinct labels. -/
lemma mem_monthly_keys {fdf : List Txn} {t : Txn} (ht : t ∈ fdf) :
    t.month ∈ List.insertionSort (fun a b : String => a ≤ b) (unique (fdf.map Txn.month)) :=
  (List.perm_insertionSort _ _).mem_iff.mpr (mem_unique.mpr (List.mem_map_of_mem _ ht))

/-- Claim C10: grouping conserves the total.  The monthly series values and
the per-code series values each sum to the total-amount metric of the
filtered subset. -/
theorem claim10_group_conservation (df : List Txn) (sel : Selection) :
    ((monthly_totals (df_year df sel.year) (filtered_df df sel)).map Prod.snd).sum
      = total_amount (filtered_df df sel) ∧
    ((code_totals (filtered_df df sel)).map Prod.snd).sum
      = total_amount (filtered_df df sel) := by
  constructor
  · have hperm := List.perm_insertionSort
      (fun a b : String × Rat =>
        month_map (df_year df sel.year) a.1 ≤ month_map (df_year df sel.year) b.1)
      (monthly_totals_rows (filtered_df df sel))
    have h1 : ((monthly_totals (df_year df sel.year) (filtered_df df sel)).map Prod.snd).sum
        = ((monthly_totals_rows (filtered_df df sel)).map Prod.snd).sum :=
      (hperm.map Prod.snd).sum_eq
    have h2 : ((monthly_totals_rows (filtered_df df sel)).map Prod.snd)
        = (List.insertionSort (fun a b : String => a ≤ b)
            (unique ((filtered_df df sel).map Txn.month))).map
              (fun m => total_amount ((filtered_df df sel).filter (fun t => t.month == m))) := by
      unfold monthly_totals_rows
      rw [List.map_map]
      rfl
    rw [h1, h2]
    exact sum_filter_partition _ Txn.month (filtered_df df sel)
      (monthly_keys_nodup _) (fun t ht => mem_monthly_keys ht)
  · have h2 : ((code_totals (filtered_df df sel)).map Prod.snd)
        = (List.insertionSort (fun a b : String => a ≤ b)
            (unique ((filtered_df df sel).map Txn.code))).map
              (fun c => total_amount ((filtered_df df sel).filter (fun t => t.code == c))) := by
      unfold code_totals
      rw [List.map_map]
      rfl
    rw [h2]
    apply sum_filter_partition _ Txn.code (filtered_df df sel)
    · exact ((List.perm_insertionSort _ _).nodup_iff).mpr (nodup_unique _)
    · intro t ht
      exact (List.perm_insertionSort _ _).mem_iff.mpr
        (mem_unique.mpr (List.mem_map_of_mem _ ht))

/-- Characterization of an entry of the monthly series: its label occurs in
the filtered rows and its value is the summed amount of its group. -/
lemma mem_monthly_totals {dfy fdf : List Txn} {p : String × Rat}
    (hp : p ∈ monthly_totals dfy fdf) :
    p.1 ∈ fdf.map Txn.month ∧
      p.2 = total_amount (fdf.filter (fun t => t.month == p.1)) := by
  have hrows : p ∈ monthly_totals_rows fdf :=
    (List.perm_insertionSort _ _).mem_iff.mp hp
  obtain ⟨m, hm, hrfl⟩ := List.mem_map.mp hrows
  subst hrfl
  have hmem : m ∈ fdf.map Txn.month :=
    mem_unique.mp ((List.perm_insertionSort _ _).mem_iff.mp hm)
  exact ⟨hmem, rfl⟩

/-- The labels of the monthly series are exactly the labels of the filtered
rows. -/
lemma monthly_totals_fst {dfy fdf : List Txn} {m : String} :
    m ∈ (monthly_totals dfy fdf).map Prod.fst ↔ m ∈ fdf.map Txn.month := by
  have hperm := List.perm_insertionSort
    (fun a b : String × Rat => month_map dfy a.1 ≤ month_map dfy b.1)
    (monthly_totals_rows fdf)
  unfold monthly_totals
  rw [(hperm.map Prod.fst).mem_iff]
  have h2 : (monthly_totals_rows fdf).map Prod.fst
      = List.insertionSort (fun a b : String => a ≤ b) (unique (fdf.map Txn.month)) := by
    unfold monthly_totals_rows
    rw [List.map_map]
    exact List.map_id _
  rw [h2, (List.perm_insertionSort _ _).mem_iff, mem_unique]

/-- Claim C5: the monthly series groups the summed amount by month label,
its labels are exactly the labels present in the filtered subset, and its
entries are strictly increasing in calendar number, hence ordered by
calendar month and not alphabetically or by occurrence. -/
theorem claim5_monthly_totals_spec (df : List Txn) (sel : Selection)
    (hval : ValidMonths (df_year df sel.year)) :
    (∀ p ∈ monthly_totals (df_year df sel.year) (filtered_df df sel),
        p.2 = total_amount ((filtered_df df sel).filter (fun t => t.month == p.1))) ∧
    (∀ m, m ∈ (monthly_totals (df_year df sel.year) (filtered_df df sel)).map Prod.fst ↔
        m ∈ (filtered_df df sel).map Txn.month) ∧
    (monthly_totals (df_year df sel.year) (filtered_df df sel)).Pairwise
      (fun p q => month_to_num p.1 < month_to_num q.1) := by
  refine ⟨fun p hp => (mem_monthly_totals hp).2, fun m => monthly_totals_fst, ?_⟩
  have hsortp : (monthly_totals (df_year df sel.year) (filtered_df df sel)).Pairwise
      (fun p q : String × Rat =>
        month_map (df_year df sel.year) p.1 ≤ month_map (df_year df sel.year) q.1) := by
    unfold monthly_totals
    haveI : IsTotal (String × Rat) (fun p q : String × Rat =>
        month_map (df_year df sel.year) p.1 ≤ month_map (df_year df sel.year) q.1) :=
      ⟨fun a b => Nat.le_total _ _⟩
    haveI : IsTrans (String × Rat) (fun p q : String × Rat =>
        month_map (df_year df sel.year) p.1 ≤ month_map (df_year df sel.year) q.1) :=
      ⟨fun a b c => Nat.le_trans⟩
    exact List.sorted_insertionSort _ _
  have hnodupfst :
      ((monthly_totals (df_year df sel.year) (filtered_df df sel)).map Prod.fst).Nodup := by
    have hperm := List.perm_insertionSort
      (fun a b : String × Rat =>
        month_map (df_year df sel.year) a.1 ≤ month_map (df_year df sel.year) b.1)
      (monthly_totals_rows (filtered_df df sel))
    unfold monthly_totals
    rw [(hperm.map Prod.fst).nodup_iff]
    have h2 : (monthly_totals_rows (filtered_df df sel)).map Prod.fst
        = List.insertionSort (fun a b : String => a ≤ b)
            (unique ((filtered_df df sel).map Txn.month)) := by
      unfold monthly_totals_rows
      rw [List.map_map]
      exact List.map_id _
    rw [h2]
    exact monthly_keys_nodup _
  have hne : (monthly_totals (df_year df sel.year) (filtered_df df sel)).Pairwise
      (fun p q : String × Rat => p.1 ≠ q.1) := List.pairwise_map.mp hnodupfst
  refine (hsortp.and hne).imp_of_mem ?_
  intro p q hp hq hpq
  have hpy : p.1 ∈ (df_year df sel.year).map Txn.month := by
    obtain ⟨t, ht, htm⟩ := List.mem_map.mp (mem_monthly_totals hp).1
    exact htm ▸ List.mem_map_of_mem Txn.month (filtered_subset_year ht)
  have hqy : q.1 ∈ (df_year df sel.year).map Txn.month := by
    obtain ⟨t, ht, htm⟩ := List.mem_map.mp (mem_monthly_totals hq).1
    exact htm ▸ List.mem_map_of_mem Txn.month (filtered_subset_year ht)
  have hle : month_to_num p.1 ≤ month_to_num q.1 := by
    rw [← month_map_eq_of_mem hval hpy, ← month_map_eq_of_mem hval hqy]
    exact hpq.1
  refine Nat.lt_of_le_of_ne hle ?_
  intro heq
  apply hpq.2
  have h1 := present_label_roundtrip hval hpy
  rw [← h1, heq, present_label_roundtrip hval hqy]

/-- Witness for claim C5 at the worked scenario, with both months valid. -/
theorem claim5_monthly_totals_spec_witness :
    ValidMonths (df_year exDf exSel.year) ∧
    ((∀ p ∈ monthly_totals (df_year exDf exSel.year) (filtered_df exDf exSel),
        p.2 = total_amount ((filtered_df exDf exSel).filter (fun t => t.month == p.1))) ∧
    (∀ m, m ∈ (monthly_totals (df_year exDf exSel.year) (filtered_df exDf exSel)).map Prod.fst ↔
        m ∈ (filtered_df exDf exSel).map Txn.month) ∧
    (monthly_totals (df_year exDf exSel.year) (filtered_df exDf exSel)).Pairwise
      (fun p q => month_to_num p.1 < month_to_num q.1)) :=
  ⟨by decide, claim5_monthly_totals_spec exDf exSel (by decide)⟩

/-- Claim C1 counterexample: with the worked 2024 data and the valid
selection that keeps both codes but only the month Jan, the reindex target
of line 66 is the month list of the whole selected year, so the pivot
columns are Jan and Feb and differ from the selected months. -/
theorem claim1_counterexample :
    (∀ m ∈ exSelJan.months, m ∈ (df_year exDf exSelJan.year).map Txn.month) ∧
    (∀ c ∈ exSelJan.codes, c ∈ (df_year exDf exSelJan.year).map Txn.code) ∧
    exSelJan.year ∈ exDf.map Txn.year ∧
    exSelJan.months = ["Jan"] ∧
    sorted_months (df_year exDf exSelJan.year) = ["Jan", "Feb"] ∧
    sorted_months (df_year exDf exSelJan.year) ≠ exSelJan.months := by
  decide

/-- Claim C1 as amended: the pivot columns are exactly the distinct month
labels present in the whole selected year (the line 66 reindex target), in
strictly increasing calendar order; they always include every selected
month, and a month with no matching filtered transaction yields the cell
value 0 for every account code rather than being a missing cell.
Deselected months of the year also remain as all-zero columns. -/
theorem claim1_pivot_columns (df : List Txn) (sel : Selection)
    (hval : ValidMonths (df_year df sel.year))
    (hsel : ∀ m ∈ sel.months, m ∈ (df_year df sel.year).map Txn.month) :
    (∀ m, m ∈ sorted_months (df_year df sel.year) ↔
        m ∈ (df_year df sel.year).map Txn.month) ∧
    (sorted_months (df_year df sel.year)).Pairwise
      (fun a b => month_to_num a < month_to_num b) ∧
    (∀ m ∈ sel.months, m ∈ sorted_months (df_year df sel.year)) ∧
    (∀ c m, m ∉ (filtered_df df sel).map Txn.month →
        pivot_cell (filtered_df df sel) c m = 0) := by
  refine ⟨fun m => mem_sorted_months, sorted_months_pairwise hval,
    fun m hm => mem_sorted_months.mpr (hsel m hm), fun c m hm => ?_⟩
  unfold pivot_cell
  have hnil : (filtered_df df sel).filter (fun t => t.code == c && t.month == m) = [] := by
    rw [List.filter_eq_nil_iff]
    intro t ht hpred
    apply hm
    have h2 : t.month = m := by
      have := (Bool.and_eq_true _ _).mp hpred
      simpa using this.2
    exact h2 ▸ List.mem_map_of_mem Txn.month ht
  rw [hnil]
  rfl

/-- Witness for the amended claim C1 at the worked scenario with only Jan
selected. -/
theorem claim1_pivot_columns_witness :
    (ValidMonths (df_year exDf exSelJan.year) ∧
      (∀ m ∈ exSelJan.months, m ∈ (df_year exDf exSelJan.year).map Txn.month)) ∧
    ((∀ m, m ∈ sorted_months (df_year exDf exSelJan.year) ↔
        m ∈ (df_year exDf exSelJan.year).map Txn.month) ∧
    (sorted_months (df_year exDf exSelJan.year)).Pairwise
      (fun a b => month_to_num a < month_to_num b) ∧
    (∀ m ∈ exSelJan.months, m ∈ sorted_months (df_year exDf exSelJan.year)) ∧
    (∀ c m, m ∉ (filtered_df exDf exSelJan).map Txn.month →
        pivot_cell (filtered_df exDf exSelJan) c m = 0)) :=
  ⟨⟨by decide, by decide⟩, claim1_pivot_columns exDf exSelJan (by decide) (by decide)⟩

/-- Label cells written by the export parse back to the labels. -/
lemma parseStrCells_map (l : List String) :
    parseStrCells (l.map Cell.str) = some l := by
  induction l with
  | nil => rfl
  | cons a l ih =>
    show parseStrCells (Cell.str a :: l.map Cell.str) = some (a :: l)
    unfold parseStrCells
    rw [ih]

/-- Numeric cells written by the export parse back to the numbers. -/
lemma parseNumCells_map (l : List Rat) :
    parseNumCells (l.map Cell.num) = some l := by
  induction l with
  | nil => rfl
  | cons a l ih =>
    show parseNumCells (Cell.num a :: l.map Cell.num) = some (a :: l)
    unfold parseNumCells
    rw [ih]

/-- A data row written by the export parses back to the original pair. -/
lemma parseRow_map (r : String × List Rat) :
    parseRow (Cell.str r.1 :: r.2.map Cell.num) = some r := by
  simp [parseRow, parseNumCells_map]

/-- The data rows written by the export parse back to the original rows. -/
lemma parseRows_map (rows : List (String × List Rat)) :
    parseRows (rows.map (fun r => Cell.str r.1 :: r.2.map Cell.num)) = some rows := by
  induction rows with
  | nil => rfl
  | cons r rs ih =>
    show parseRows ((Cell.str r.1 :: r.2.map Cell.num) ::
      rs.map (fun r => Cell.str r.1 :: r.2.map Cell.num)) = some (r :: rs)
    simp [parseRows, parseRow_map, ih]

/-- Claim C9: the export carries a single sheet named after the selected
year, is offered under the pivot file name with the xlsx MIME type, and
parsing the exported grid back recovers exactly the in-memory pivot table,
its column labels (calendar-ordered months plus Total) and all row
values. -/
theorem claim9_export_roundtrip (selected_year : Int) (p : PivotTable) :
    (export_pivot selected_year p).sheet_name = "Pivot_" ++ toString selected_year ∧
    (export_pivot selected_year p).file_name
      = "pivot_" ++ toString selected_year ++ ".xlsx" ∧
    (export_pivot selected_year p).mime
      = "application/vnd.openxmlformats-officedocument.spreadsheetml.sheet" ∧
    grid_to_pivot (export_pivot selected_year p).grid = some p := by
  refine ⟨rfl, rfl, rfl, ?_⟩
  show grid_to_pivot (pivot_to_grid p) = some p
  simp [pivot_to_grid, grid_to_pivot, parseStrCells_map, parseRows_map]
